import Mathlib

/-!
Shallow embedding of the Klondike Solitaire engine of `src/solitaire.js`.

JS arrays become Lean `List`s with the JS ordering kept: index 0 is the
bottom of a pile and the list's last element is the pile's top
(`push` appends, `pop` = `dropLast`/`getLast?`).  The mutable module-level
variables `stock`, `waste`, `foundations`, `tableau`, `selectedCards`
become the fields of `GameState`, and every JS function that mutates them
becomes a state-passing function.  The `alert` fired by `checkWin` is
modelled by a ghost counter `alerts` that counts how many times the win
alert has been shown; no game logic reads it.  Rendering (`render`) and
the unused `moveHistory` buffer are pure presentation concerns and are
omitted.  A card's `id` string `"${value}-${suit}"` is in bijection with
the pair `(value, suit)`, so ids are modelled as that pair; `color` is
assigned at creation from the suit and never written afterwards, so it is
modelled as a derived function.
-/

inductive Suit
  | hearts
  | diamonds
  | clubs
  | spades
deriving DecidableEq, Repr

inductive Val
  | A
  | n2
  | n3
  | n4
  | n5
  | n6
  | n7
  | n8
  | n9
  | n10
  | J
  | Q
  | K
deriving DecidableEq, Repr

inductive Color
  | red
  | black
deriving DecidableEq, Repr

/-- The short suit codes `"h" | "d" | "c" | "s"` used to key `foundations`. -/
inductive SuitKey
  | h
  | d
  | c
  | s
deriving DecidableEq, Repr

/-- `const SUITS = ["hearts", "diamonds", "clubs", "spades"]`. -/
def SUITS : List Suit := [.hearts, .diamonds, .clubs, .spades]

/-- `const VALUES = ["A","2",...,"10","J","Q","K"]`. -/
def VALUES : List Val :=
  [.A, .n2, .n3, .n4, .n5, .n6, .n7, .n8, .n9, .n10, .J, .Q, .K]

/-- `SUIT_SHORT` lookup: `{hearts: "h", diamonds: "d", clubs: "c", spades: "s"}`. -/
def getSuitShort : Suit → SuitKey
  | .hearts => .h
  | .diamonds => .d
  | .clubs => .c
  | .spades => .s

/-- A card object.  `color` and `id` are derived (see the header comment). -/
structure Card where
  suit : Suit
  value : Val
  faceUp : Bool
deriving DecidableEq, Repr

/-- The identity `"${value}-${suit}"` of a card, as the pair it encodes. -/
abbrev CardId := Val × Suit

def Card.id (c : Card) : CardId := (c.value, c.suit)

/-- `color: suit === "hearts" || suit === "diamonds" ? "red" : "black"`. -/
def Card.color (c : Card) : Color :=
  if c.suit = .hearts ∨ c.suit = .diamonds then .red else .black

/-- `createCard(suit, value)` (with `faceUp: false`). -/
def createCard (suit : Suit) (value : Val) : Card :=
  { suit := suit, value := value, faceUp := false }

/-- `createDeck()`: suit-major, value-minor, 52 cards. -/
def createDeck : List Card :=
  (SUITS.map (fun s => VALUES.map (createCard s))).flatten

/-- `getValueIndex(value) = VALUES.indexOf(value)`. -/
def getValueIndex (value : Val) : Nat :=
  VALUES.indexOf value

/-- A pile coordinate: the `{type, index}` pairs the engine passes around
(`"waste"`, `"tableau"` with a column index, `"foundation"` with a suit key). -/
inductive Loc
  | waste
  | tableau (i : Fin 7)
  | foundation (k : SuitKey)
deriving DecidableEq, Repr

/-- `selectedCards = { cards, source }` (or `null`). -/
abbrev Selection := List Card × Loc

/-- The module-level mutable state of `solitaire.js`, plus the ghost
`alerts` counter recording how many times the win alert has fired. -/
structure GameState where
  stock : List Card
  waste : List Card
  foundations : SuitKey → List Card
  tableau : Fin 7 → List Card
  selectedCards : Option Selection
  alerts : Nat

/-- `deselect()`. -/
def deselect (s : GameState) : GameState :=
  { s with selectedCards := none }

/-- `selectCards(cards, source)`. -/
def selectCards (cards : List Card) (source : Loc) (s : GameState) : GameState :=
  { s with selectedCards := some (cards, source) }

/-- The sum of the four foundation lengths computed by `checkWin`. -/
def totalFoundationCards (s : GameState) : Nat :=
  (s.foundations .h).length + (s.foundations .d).length +
    (s.foundations .c).length + (s.foundations .s).length

/-- `checkWin()`: fires the win alert when the foundations hold 52 cards.
The alert itself is recorded in the ghost counter. -/
def checkWin (s : GameState) : GameState :=
  if totalFoundationCards s = 52 then { s with alerts := s.alerts + 1 } else s

/-- `canMoveToFoundation(card, foundationSuit)`. -/
def canMoveToFoundation (s : GameState) (card : Card) (foundationSuit : SuitKey) :
    Bool :=
  let foundation := s.foundations foundationSuit
  let suitShort := getSuitShort card.suit
  if suitShort ≠ foundationSuit then false
  else
    match foundation.getLast? with
    | none => decide (card.value = .A)
    | some topCard =>
        decide (getValueIndex card.value = getValueIndex topCard.value + 1)

/-- `canMoveToTableau(cards, targetCol)`.  JS evaluates
`getValueIndex(target) - 1` over signed numbers, so the comparison is done
in `Int` (an Ace top gives `-1`, matched by no card).  The code is never
called with an empty `cards` (JS would throw on `cards[0]`); that case is
mapped to `false`. -/
def canMoveToTableau (s : GameState) (cards : List Card) (targetCol : Fin 7) :
    Bool :=
  let targetPile := s.tableau targetCol
  match cards.head? with
  | none => false
  | some movingCard =>
      match targetPile.getLast? with
      | none => decide (movingCard.value = .K)
      | some targetCard =>
          if !targetCard.faceUp then false
          else if movingCard.color = targetCard.color then false
          else
            decide ((getValueIndex movingCard.value : Int) =
              (getValueIndex targetCard.value : Int) - 1)

/-- `drawFromStock()`.  `stock.length === 0` is tested via `getLast?`
(the popped card when non-empty). -/
def drawFromStock (s : GameState) : GameState :=
  let s0 := deselect s
  match s0.stock.getLast? with
  | none =>
      if s0.waste.isEmpty then s0
      else
        { s0 with
          stock := s0.waste.reverse.map (fun c => { c with faceUp := false }),
          waste := [] }
  | some card =>
      { s0 with
        stock := s0.stock.dropLast,
        waste := s0.waste ++ [{ card with faceUp := true }] }

/-- The auto-flip at the end of the tableau-source branch of `moveCards`:
`if (pile.length > 0 && !pile[pile.length-1].faceUp) pile[...].faceUp = true`. -/
def flipTopIfFaceDown (pile : List Card) : List Card :=
  match pile.getLast? with
  | none => pile
  | some last =>
      if last.faceUp then pile
      else pile.dropLast ++ [{ last with faceUp := true }]

/-- The removal half of `moveCards`.  For a tableau source the start index
is `pile.findIndex(c => c.id === cards[0].id)`; at every call site the
selected `cards` are a suffix of the pile, so the index is always found
(JS would otherwise get `-1`; the `cards = []` case, where JS would throw
on `cards[0]`, is a no-op here and is likewise never reached). -/
def removeFromSource (cards : List Card) (source : Loc) (s : GameState) :
    GameState :=
  match source with
  | .waste => { s with waste := s.waste.dropLast }
  | .tableau i =>
      match cards.head? with
      | none => s
      | some c0 =>
          let pile := s.tableau i
          let startIdx := pile.findIdx (fun c => decide (c.id = c0.id))
          let pile1 := pile.take startIdx ++ pile.drop (startIdx + cards.length)
          { s with tableau := Function.update s.tableau i (flipTopIfFaceDown pile1) }
  | .foundation k =>
      { s with foundations :=
          Function.update s.foundations k ((s.foundations k).dropLast) }

/-- The insertion half of `moveCards`: `push(...cards)` onto the
destination pile.  `moveCards` is only ever called with a tableau or
foundation destination. -/
def addToDestination (cards : List Card) (destination : Loc) (s : GameState) :
    GameState :=
  match destination with
  | .tableau j =>
      { s with tableau := Function.update s.tableau j (s.tableau j ++ cards) }
  | .foundation k =>
      { s with foundations :=
          Function.update s.foundations k (s.foundations k ++ cards) }
  | .waste => s

/-- `moveCards(cards, source, destination)`:
remove, insert, `deselect()`, `render()` (omitted), `checkWin()`. -/
def moveCards (cards : List Card) (source destination : Loc) (s : GameState) :
    GameState :=
  checkWin (deselect (addToDestination cards destination
    (removeFromSource cards source s)))

/-- `attemptMove(destinationType, destinationIndex)`.  The `Bool` is the
returned value; the bare `return` on a missing selection yields the falsy
`undefined`, modelled as `false`. -/
def attemptMove (s : GameState) (dest : Loc) : GameState × Bool :=
  match s.selectedCards with
  | none => (s, false)
  | some (cards, source) =>
      match dest with
      | .foundation k =>
          match cards with
          | [c] =>
              if canMoveToFoundation s c k then
                (moveCards cards source (.foundation k) s, true)
              else (deselect s, false)
          | _ => (deselect s, false)
      | .tableau i =>
          if canMoveToTableau s cards i then
            (moveCards cards source (.tableau i) s, true)
          else (deselect s, false)
      | .waste => (deselect s, false)

/-- `autoMoveToFoundation(card, source)`. -/
def autoMoveToFoundation (card : Card) (source : Loc) (s : GameState) :
    GameState × Bool :=
  let suitShort := getSuitShort card.suit
  if canMoveToFoundation s card suitShort then
    (moveCards [card] source (.foundation suitShort) s, true)
  else (s, false)

/-- The card-resolution prologue of `handleCardClick`: computes
`pile`, `card`, `cardIndex` from the source, or `none` when the JS `card`
would be `undefined` (empty waste/foundation, or the `findIndex = -1` /
`pile[-1]` case for an unknown tableau id). -/
def resolveClick (cardId : CardId) (src : Loc) (s : GameState) :
    Option (List Card × Card × Nat) :=
  match src with
  | .waste =>
      match s.waste.getLast? with
      | none => none
      | some c => some (s.waste, c, s.waste.length - 1)
  | .tableau i =>
      let pile := s.tableau i
      let idx := pile.findIdx (fun c => decide (c.id = cardId))
      match pile[idx]? with
      | none => none
      | some c => some (pile, c, idx)
  | .foundation k =>
      match (s.foundations k).getLast? with
      | none => none
      | some c => some (s.foundations k, c, (s.foundations k).length - 1)

/-- The run a click refers to: `sourceType === "tableau"
? pile.slice(cardIndex) : [card]` (used both by the double-click path and
by selection). -/
def cardsFromIndex (src : Loc) (pile : List Card) (card : Card)
    (cardIndex : Nat) : List Card :=
  match src with
  | .tableau _ => pile.drop cardIndex
  | _ => [card]

/-- The double-click fast path of `handleCardClick`: on a non-foundation
source whose clicked run is a single card, try `autoMoveToFoundation`;
`some` is the early `return` after a successful auto-move. -/
def tryDoubleClick (src : Loc) (pile : List Card) (card : Card)
    (cardIndex : Nat) (isDouble : Bool) (s : GameState) : Option GameState :=
  if isDouble then
    match src with
    | .foundation _ => none
    | _ =>
        if (cardsFromIndex src pile card cardIndex).length = 1 then
          let r := autoMoveToFoundation card src s
          if r.2 then some r.1 else none
        else none
  else none

/-- `handleCardClick(cardId, sourceType, sourceIndex, event)`.  The DOM
event is reduced to the double-click flag `event.detail === 2`.  A missing
card or a face-down card is a no-op; otherwise the double-click fast path
runs first, then selection begins (no active selection) or the click is a
move attempt against the active selection. -/
def handleCardClick (cardId : CardId) (src : Loc) (isDouble : Bool)
    (s : GameState) : GameState :=
  match resolveClick cardId src s with
  | none => s
  | some (pile, card, cardIndex) =>
      if !card.faceUp then s
      else
        match tryDoubleClick src pile card cardIndex isDouble s with
        | some s1 => s1
        | none =>
            match s.selectedCards with
            | none => selectCards (cardsFromIndex src pile card cardIndex) src s
            | some _ =>
                match src with
                | .tableau i => (attemptMove s (.tableau i)).1
                | .foundation k => (attemptMove s (.foundation k)).1
                | .waste => deselect s

/-- `handleEmptySlotClick(slotType, slotIndex)`. -/
def handleEmptySlotClick (slot : Loc) (s : GameState) : GameState :=
  match s.selectedCards with
  | some _ => (attemptMove s slot).1
  | none => s

/-- The inner deal loop of `initGame` for one column: each dealt card's
`faceUp` is assigned `row === col`, i.e. `true` exactly on the column's
last card. -/
def dealPile : List Card → List Card
  | [] => []
  | [c] => [{ c with faceUp := true }]
  | c :: c1 :: rest => { c with faceUp := false } :: dealPile (c1 :: rest)

/-- The double deal loop of `initGame`: columns take 1, 2, …, 7 cards in
order from the front of the shuffled deck; the remainder is the stock. -/
def dealCols : List Nat → List Card → List (List Card) × List Card
  | [], deck => ([], deck)
  | n :: ns, deck =>
      let r := dealCols ns (deck.drop n)
      (dealPile (deck.take n) :: r.1, r.2)

/-- `initGame()` on an already-shuffled deck (the `Math.random` shuffle is
the function's only input and is taken as a parameter). -/
def initGame (deck : List Card) : GameState :=
  let r := dealCols [1, 2, 3, 4, 5, 6, 7] deck
  { stock := r.2
    waste := []
    foundations := fun _ => []
    tableau := fun i => r.1.getD i []
    selectedCards := none
    alerts := 0 }

/-- Iterated `drawFromStock`. -/
def drawN : Nat → GameState → GameState
  | 0, s => s
  | n + 1, s => drawN n (drawFromStock s)

/-!
## Card-conservation bookkeeping

`allIds` collects the multiset of card identities over every pile of a
state (selection and ghost counter excluded); `fullDeckIds` is the 52
canonical identities.
-/

/-- The multiset of identities of a pile. -/
def idsM (l : List Card) : Multiset CardId := (l.map Card.id : List CardId)

/-- Identities across the four foundations. -/
def foundIds (f : SuitKey → List Card) : Multiset CardId :=
  idsM (f .h) + idsM (f .d) + idsM (f .c) + idsM (f .s)

/-- Identities across the seven tableau columns. -/
def tabIds (t : Fin 7 → List Card) : Multiset CardId :=
  idsM (t 0) + idsM (t 1) + idsM (t 2) + idsM (t 3) + idsM (t 4) +
    idsM (t 5) + idsM (t 6)

/-- Identities across the whole board. -/
def allIds (s : GameState) : Multiset CardId :=
  idsM s.stock + idsM s.waste + foundIds s.foundations + tabIds s.tableau

/-- The 52 identities of the canonical deck. -/
def fullDeckIds : Multiset CardId := idsM createDeck

/-- The selection invariant: when a selection is present, its cards are
exactly the relevant part of the source pile (the single top card for
waste/foundation sources, a non-empty suffix for a tableau source). -/
def SelInv (s : GameState) : Prop :=
  match s.selectedCards with
  | none => True
  | some (cards, source) =>
      match source with
      | .waste => ∃ c, s.waste.getLast? = some c ∧ cards = [c]
      | .foundation k => ∃ c, (s.foundations k).getLast? = some c ∧ cards = [c]
      | .tableau i => cards ≠ [] ∧ cards.IsSuffix (s.tableau i)

/-- The reachability invariant for claim C1. -/
def BoardInv (s : GameState) : Prop :=
  allIds s = fullDeckIds ∧ SelInv s

/-- One engine operation, as exposed to the input layer. -/
inductive Step : GameState → GameState → Prop
  | draw (s : GameState) : Step s (drawFromStock s)
  | click (cardId : CardId) (src : Loc) (isDouble : Bool) (s : GameState) :
      Step s (handleCardClick cardId src isDouble s)
  | emptySlot (slot : Loc) (s : GameState) :
      Step s (handleEmptySlotClick slot s)
  | attempt (dest : Loc) (s : GameState) : Step s (attemptMove s dest).1
  | desel (s : GameState) : Step s (deselect s)

/-- States reachable from a fresh deal of some shuffled deck. -/
def Reachable (s : GameState) : Prop :=
  ∃ deck : List Card, deck.Perm createDeck ∧
    Relation.ReflTransGen Step (initGame deck) s

/-!
## Basic lemmas about identities
-/

theorem idsM_nil : idsM [] = 0 := rfl

theorem idsM_append (l1 l2 : List Card) : idsM (l1 ++ l2) = idsM l1 + idsM l2 := by
  simp [idsM]

theorem idsM_singleton (c : Card) : idsM [c] = {c.id} := by
  simp [idsM]

theorem idsM_take_add_drop (n : Nat) (l : List Card) :
    idsM (l.take n) + idsM (l.drop n) = idsM l := by
  rw [← idsM_append, List.take_append_drop]

theorem idsM_reverse (l : List Card) : idsM l.reverse = idsM l := by
  simp [idsM]

theorem idsM_set_faceUp (l : List Card) (b : Bool) :
    idsM (l.map fun c => { c with faceUp := b }) = idsM l := by
  simp only [idsM, List.map_map]
  have h : (Card.id ∘ fun c => { c with faceUp := b }) = Card.id :=
    funext fun c => rfl
  rw [h]

theorem idsM_flipTop (l : List Card) : idsM (flipTopIfFaceDown l) = idsM l := by
  unfold flipTopIfFaceDown
  cases h : l.getLast? with
  | none => rfl
  | some c =>
      show idsM (if c.faceUp then l else _) = idsM l
      by_cases hf : c.faceUp
      · simp [hf]
      · simp only [hf, if_false]
        calc idsM (l.dropLast ++ [{ c with faceUp := true }])
            = idsM l.dropLast + idsM [{ c with faceUp := true }] :=
              idsM_append _ _
          _ = idsM l.dropLast + idsM [c] := by simp [idsM, Card.id]
          _ = idsM (l.dropLast ++ [c]) := (idsM_append _ _).symm
          _ = idsM l := by rw [List.dropLast_append_getLast? c h]

theorem idsM_dealPile (l : List Card) : idsM (dealPile l) = idsM l := by
  induction l with
  | nil => rfl
  | cons c tl ih =>
      cases tl with
      | nil => simp [dealPile, idsM, Card.id]
      | cons c1 rest =>
          rw [dealPile]
          simp only [idsM, List.map_cons] at ih ⊢
          rw [← Multiset.cons_coe, ← Multiset.cons_coe, ih]
          rfl

theorem foundIds_update (f : SuitKey → List Card) (k : SuitKey) (p : List Card) :
    foundIds (Function.update f k p) + idsM (f k) = foundIds f + idsM p := by
  cases k <;> simp [foundIds, Function.update] <;> abel

theorem tabIds_update (t : Fin 7 → List Card) (i : Fin 7) (p : List Card) :
    tabIds (Function.update t i p) + idsM (t i) = tabIds t + idsM p := by
  fin_cases i <;> simp [tabIds, Function.update] <;> abel

/-!
## The splice of `moveCards` on a tableau source

At every call site the moved `cards` are a suffix of the source pile and
ids are globally unique, so `findIndex` lands exactly at the start of
that suffix and `splice` removes exactly `cards`.
-/

theorem findIdx_id_of_suffix (front : List Card) (c0 : Card) (cs : List Card)
    (hnd : ((front ++ c0 :: cs).map Card.id).Nodup) :
    (front ++ c0 :: cs).findIdx (fun c => decide (c.id = c0.id)) =
      front.length := by
  induction front with
  | nil => simp [List.findIdx_cons]
  | cons f fr ih =>
      have hmem : c0.id ∈ (fr ++ c0 :: cs).map Card.id := by simp
      have hf : ¬ f.id = c0.id := by
        simp only [List.cons_append, List.map_cons, List.nodup_cons] at hnd
        intro h
        exact hnd.1 (h ▸ hmem)
      have hnd2 : ((fr ++ c0 :: cs).map Card.id).Nodup := by
        simp only [List.cons_append, List.map_cons, List.nodup_cons] at hnd
        exact hnd.2
      simp [List.findIdx_cons, hf, ih hnd2]

theorem removeFromSource_tableau_eq (s : GameState) (i : Fin 7)
    (front cards : List Card) (hpile : s.tableau i = front ++ cards)
    (hne : cards ≠ [])
    (hnd : ((s.tableau i).map Card.id).Nodup) :
    removeFromSource cards (.tableau i) s =
      { s with
        tableau := Function.update s.tableau i (flipTopIfFaceDown front) } := by
  obtain ⟨c0, cs, rfl⟩ := List.exists_cons_of_ne_nil hne
  rw [hpile] at hnd
  have hidx : (s.tableau i).findIdx (fun c => decide (c.id = c0.id)) =
      front.length := by
    rw [hpile]; exact findIdx_id_of_suffix front c0 cs hnd
  show { s with tableau := Function.update s.tableau i (flipTopIfFaceDown _) } = _
  congr 2
  rw [hidx, hpile, List.take_left]
  have hdrop : (front ++ c0 :: cs).drop (front.length + (c0 :: cs).length) =
      [] := by
    rw [← List.drop_drop, List.drop_left, List.drop_length]
  rw [hdrop, List.append_nil]

/-- The property of the `cards`/`source` arguments that holds at every
call of `moveCards`: the moved cards are exactly the popped top card
(waste or foundation source) or a non-empty suffix of the source column
(tableau source, with globally unique ids making `findIndex` exact). -/
def RemovalOK (cards : List Card) (source : Loc) (s : GameState) : Prop :=
  match source with
  | .waste => ∃ c, s.waste.getLast? = some c ∧ cards = [c]
  | .foundation k => ∃ c, (s.foundations k).getLast? = some c ∧ cards = [c]
  | .tableau i =>
      cards ≠ [] ∧ cards.IsSuffix (s.tableau i) ∧
        ((s.tableau i).map Card.id).Nodup

theorem allIds_removeFromSource (cards : List Card) (source : Loc)
    (s : GameState) (h : RemovalOK cards source s) :
    allIds (removeFromSource cards source s) + idsM cards = allIds s := by
  cases source with
  | waste =>
      obtain ⟨c, hw, rfl⟩ := h
      show idsM s.stock + idsM s.waste.dropLast + foundIds s.foundations +
        tabIds s.tableau + idsM [c] = allIds s
      have : idsM s.waste.dropLast + idsM [c] = idsM s.waste := by
        rw [← idsM_append, List.dropLast_append_getLast? c hw]
      unfold allIds
      rw [← this]; abel
  | foundation k =>
      obtain ⟨c, hw, rfl⟩ := h
      show idsM s.stock + idsM s.waste +
        foundIds (Function.update s.foundations k ((s.foundations k).dropLast)) +
        tabIds s.tableau + idsM [c] = allIds s
      have h1 := foundIds_update s.foundations k ((s.foundations k).dropLast)
      have h2 : idsM ((s.foundations k).dropLast) + idsM [c] =
          idsM (s.foundations k) := by
        rw [← idsM_append, List.dropLast_append_getLast? c hw]
      rw [← h2] at h1
      have h4 : (foundIds (Function.update s.foundations k
            ((s.foundations k).dropLast)) + idsM [c]) +
            idsM ((s.foundations k).dropLast) =
          foundIds s.foundations + idsM ((s.foundations k).dropLast) := by
        rw [← h1]; abel
      have h3 := add_right_cancel h4
      unfold allIds
      rw [← h3]; abel
  | tableau i =>
      obtain ⟨hne, ⟨front, hpile⟩, hnd⟩ := h
      rw [removeFromSource_tableau_eq s i front cards hpile.symm hne hnd]
      show idsM s.stock + idsM s.waste + foundIds s.foundations +
        tabIds (Function.update s.tableau i (flipTopIfFaceDown front)) +
        idsM cards = allIds s
      have h1 := tabIds_update s.tableau i (flipTopIfFaceDown front)
      rw [idsM_flipTop] at h1
      have h2 : idsM (s.tableau i) = idsM front + idsM cards := by
        rw [← hpile, idsM_append]
      rw [h2] at h1
      have h3 : (tabIds (Function.update s.tableau i (flipTopIfFaceDown front)) +
          idsM cards) + idsM front = tabIds s.tableau + idsM front := by
        rw [← h1]; abel
      have key := add_right_cancel h3
      unfold allIds
      rw [← key]; abel

theorem allIds_addToDestination (cards : List Card) (dest : Loc)
    (s : GameState) (h : dest ≠ .waste) :
    allIds (addToDestination cards dest s) = allIds s + idsM cards := by
  cases dest with
  | waste => exact absurd rfl h
  | tableau j =>
      show idsM s.stock + idsM s.waste + foundIds s.foundations +
        tabIds (Function.update s.tableau j (s.tableau j ++ cards)) =
        allIds s + idsM cards
      have h1 := tabIds_update s.tableau j (s.tableau j ++ cards)
      rw [idsM_append] at h1
      have h2 : tabIds (Function.update s.tableau j (s.tableau j ++ cards)) =
          tabIds s.tableau + idsM cards := by
        have h3 : tabIds (Function.update s.tableau j (s.tableau j ++ cards)) +
            idsM (s.tableau j) =
            (tabIds s.tableau + idsM cards) + idsM (s.tableau j) := by
          rw [h1]; abel
        exact add_right_cancel h3
      unfold allIds
      rw [h2]; abel
  | foundation k =>
      show idsM s.stock + idsM s.waste +
        foundIds (Function.update s.foundations k (s.foundations k ++ cards)) +
        tabIds s.tableau = allIds s + idsM cards
      have h1 := foundIds_update s.foundations k (s.foundations k ++ cards)
      rw [idsM_append] at h1
      have h2 : foundIds (Function.update s.foundations k
          (s.foundations k ++ cards)) = foundIds s.foundations + idsM cards := by
        have h3 : foundIds (Function.update s.foundations k
            (s.foundations k ++ cards)) + idsM (s.foundations k) =
            (foundIds s.foundations + idsM cards) + idsM (s.foundations k) := by
          rw [h1]; abel
        exact add_right_cancel h3
      unfold allIds
      rw [h2]; abel

theorem allIds_deselect (s : GameState) : allIds (deselect s) = allIds s := rfl

theorem allIds_checkWin (s : GameState) : allIds (checkWin s) = allIds s := by
  unfold checkWin
  split <;> rfl

theorem allIds_moveCards (cards : List Card) (source dest : Loc)
    (s : GameState) (hrem : RemovalOK cards source s) (hdest : dest ≠ .waste) :
    allIds (moveCards cards source dest s) = allIds s := by
  unfold moveCards
  rw [allIds_checkWin, allIds_deselect]
  have hsrc : RemovalOK cards source s := hrem
  have h1 := allIds_removeFromSource cards source s hrem
  rw [allIds_addToDestination cards dest _ hdest, h1]

theorem moveCards_selectedCards (cards : List Card) (source dest : Loc)
    (s : GameState) : (moveCards cards source dest s).selectedCards = none := by
  unfold moveCards checkWin
  split <;> rfl

theorem drawFromStock_selectedCards (s : GameState) :
    (drawFromStock s).selectedCards = none := by
  simp only [drawFromStock]
  split
  · split <;> rfl
  · rfl

theorem attemptMove_selectedCards (s : GameState) (dest : Loc) :
    ((attemptMove s dest).1).selectedCards = none := by
  unfold attemptMove
  split
  · next heq => exact heq
  · (repeat' split) <;> first
      | exact moveCards_selectedCards ..
      | rfl

/-!
## The conservation invariant is preserved by every operation
-/

theorem fullDeckIds_nodup : fullDeckIds.Nodup := by decide

theorem idsM_tab_le (t : Fin 7 → List Card) (i : Fin 7) :
    idsM (t i) ≤ tabIds t := by
  fin_cases i
  · show idsM (t 0) ≤ tabIds t
    rw [Multiset.le_iff_count]; intro a
    simp only [tabIds, Multiset.count_add]; omega
  · show idsM (t 1) ≤ tabIds t
    rw [Multiset.le_iff_count]; intro a
    simp only [tabIds, Multiset.count_add]; omega
  · show idsM (t 2) ≤ tabIds t
    rw [Multiset.le_iff_count]; intro a
    simp only [tabIds, Multiset.count_add]; omega
  · show idsM (t 3) ≤ tabIds t
    rw [Multiset.le_iff_count]; intro a
    simp only [tabIds, Multiset.count_add]; omega
  · show idsM (t 4) ≤ tabIds t
    rw [Multiset.le_iff_count]; intro a
    simp only [tabIds, Multiset.count_add]; omega
  · show idsM (t 5) ≤ tabIds t
    rw [Multiset.le_iff_count]; intro a
    simp only [tabIds, Multiset.count_add]; omega
  · show idsM (t 6) ≤ tabIds t
    rw [Multiset.le_iff_count]; intro a
    simp only [tabIds, Multiset.count_add]; omega

theorem tab_ids_nodup (s : GameState) (h : allIds s = fullDeckIds) (i : Fin 7) :
    ((s.tableau i).map Card.id).Nodup := by
  have hle : idsM (s.tableau i) ≤ allIds s := by
    calc idsM (s.tableau i) ≤ tabIds s.tableau := idsM_tab_le _ i
      _ ≤ allIds s := by unfold allIds; exact le_add_self
  have hnd : (idsM (s.tableau i)).Nodup :=
    Multiset.nodup_of_le hle (h ▸ fullDeckIds_nodup)
  exact Multiset.coe_nodup.mp hnd

theorem selInv_of_none (s : GameState) (h : s.selectedCards = none) :
    SelInv s := by
  unfold SelInv
  rw [h]
  exact trivial

theorem selInv_removalOK (s : GameState) (cards : List Card) (source : Loc)
    (hsel : s.selectedCards = some (cards, source)) (hinv : BoardInv s) :
    RemovalOK cards source s := by
  obtain ⟨hids, hselinv⟩ := hinv
  unfold SelInv at hselinv
  rw [hsel] at hselinv
  cases source with
  | waste => exact hselinv
  | foundation k => exact hselinv
  | tableau i =>
      obtain ⟨hne, hsuf⟩ := hselinv
      exact ⟨hne, hsuf, tab_ids_nodup s hids i⟩

theorem boardInv_moveCards (cards : List Card) (source dest : Loc)
    (s : GameState) (hids : allIds s = fullDeckIds)
    (hrem : RemovalOK cards source s) (hdest : dest ≠ .waste) :
    BoardInv (moveCards cards source dest s) := by
  refine ⟨?_, selInv_of_none _ (moveCards_selectedCards ..)⟩
  rw [allIds_moveCards cards source dest s hrem hdest, hids]

theorem boardInv_attemptMove (s : GameState) (dest : Loc) (h : BoardInv s) :
    BoardInv (attemptMove s dest).1 := by
  refine ⟨?_, selInv_of_none _ (attemptMove_selectedCards s dest)⟩
  unfold attemptMove
  split
  · exact h.1
  · next cards source heq =>
      have hok : RemovalOK cards source s := selInv_removalOK s cards source heq h
      (repeat' split) <;>
        first
          | exact h.1
          | (rw [allIds_moveCards _ _ _ _ hok (by simp)]; exact h.1)

theorem boardInv_deselect (s : GameState) (h : BoardInv s) :
    BoardInv (deselect s) :=
  ⟨h.1, selInv_of_none _ rfl⟩

theorem boardInv_emptySlot (slot : Loc) (s : GameState) (h : BoardInv s) :
    BoardInv (handleEmptySlotClick slot s) := by
  unfold handleEmptySlotClick
  split
  · exact boardInv_attemptMove s slot h
  · exact h

theorem allIds_drawFromStock (s : GameState) :
    allIds (drawFromStock s) = allIds s := by
  simp only [drawFromStock]
  split
  · next hlast =>
      have hstock : s.stock = [] := List.getLast?_eq_none_iff.mp hlast
      split
      · rfl
      · show allIds
          { deselect s with
            stock := (deselect s).waste.reverse.map
              (fun c => { c with faceUp := false }),
            waste := [] } = allIds s
        unfold allIds
        show idsM (s.waste.reverse.map fun c => { c with faceUp := false }) +
          idsM [] + foundIds s.foundations + tabIds s.tableau = _
        rw [idsM_set_faceUp, idsM_reverse, hstock]
        show _ = idsM [] + idsM s.waste + _ + _
        abel
  · next c hlast =>
      show allIds
        { deselect s with
          stock := (deselect s).stock.dropLast,
          waste := (deselect s).waste ++ [{ c with faceUp := true }] } =
        allIds s
      unfold allIds
      show idsM s.stock.dropLast +
        idsM (s.waste ++ [{ c with faceUp := true }]) + _ + _ = _
      rw [idsM_append]
      have h1 : idsM [{ c with faceUp := true }] = idsM [c] := by
        simp [idsM, Card.id]
      have hlast2 : s.stock.getLast? = some c := hlast
      have h2 : idsM s.stock.dropLast + idsM [c] = idsM s.stock := by
        rw [← idsM_append, List.dropLast_append_getLast? c hlast2]
      rw [h1, ← h2]
      abel

theorem boardInv_drawFromStock (s : GameState) (h : BoardInv s) :
    BoardInv (drawFromStock s) :=
  ⟨by rw [allIds_drawFromStock, h.1],
    selInv_of_none _ (drawFromStock_selectedCards s)⟩

theorem resolveClick_waste (cardId : CardId) (s : GameState)
    (pile : List Card) (card : Card) (cardIndex : Nat)
    (h : resolveClick cardId .waste s = some (pile, card, cardIndex)) :
    s.waste.getLast? = some card ∧ pile = s.waste := by
  unfold resolveClick at h
  cases hw : s.waste.getLast? with
  | none => rw [hw] at h; exact absurd h (by simp)
  | some c =>
      rw [hw] at h
      simp only [Option.some.injEq, Prod.mk.injEq] at h
      obtain ⟨h1, h2, h3⟩ := h
      exact ⟨by rw [h2], h1.symm⟩

theorem resolveClick_foundation (cardId : CardId) (k : SuitKey) (s : GameState)
    (pile : List Card) (card : Card) (cardIndex : Nat)
    (h : resolveClick cardId (.foundation k) s = some (pile, card, cardIndex)) :
    (s.foundations k).getLast? = some card ∧ pile = s.foundations k := by
  unfold resolveClick at h
  simp only at h
  cases hw : (s.foundations k).getLast? with
  | none => rw [hw] at h; exact absurd h (by simp)
  | some c =>
      rw [hw] at h
      simp only [Option.some.injEq, Prod.mk.injEq] at h
      obtain ⟨h1, h2, h3⟩ := h
      exact ⟨by rw [h2], h1.symm⟩

theorem resolveClick_tableau (cardId : CardId) (i : Fin 7) (s : GameState)
    (pile : List Card) (card : Card) (cardIndex : Nat)
    (h : resolveClick cardId (.tableau i) s = some (pile, card, cardIndex)) :
    pile = s.tableau i ∧ pile[cardIndex]? = some card := by
  unfold resolveClick at h
  simp only at h
  cases hg : (s.tableau i)[(s.tableau i).findIdx fun c => decide (c.id = cardId)]?
    with
  | none => rw [hg] at h; exact absurd h (by simp)
  | some c =>
      rw [hg] at h
      simp only [Option.some.injEq, Prod.mk.injEq] at h
      obtain ⟨h1, h2, h3⟩ := h
      subst h1 h2
      rw [← h3]
      exact ⟨rfl, hg⟩

theorem drop_eq_singleton (pile : List Card) (idx : Nat) (card : Card)
    (hget : pile[idx]? = some card) (hlen : (pile.drop idx).length = 1) :
    pile.drop idx = [card] := by
  have hh : (pile.drop idx).head? = some card := by
    rw [List.head?_drop, hget]
  cases hd : pile.drop idx with
  | nil => rw [hd] at hlen; simp at hlen
  | cons x xs =>
      rw [hd] at hh hlen
      simp only [List.head?_cons, Option.some.injEq] at hh
      cases xs with
      | nil => rw [hh]
      | cons y ys => simp at hlen

theorem boardInv_tryDoubleClick (cardId : CardId) (src : Loc) (s : GameState)
    (pile : List Card) (card : Card) (cardIndex : Nat) (isDouble : Bool)
    (s1 : GameState) (h : BoardInv s)
    (hres : resolveClick cardId src s = some (pile, card, cardIndex))
    (hdc : tryDoubleClick src pile card cardIndex isDouble s = some s1) :
    BoardInv s1 := by
  unfold tryDoubleClick at hdc
  by_cases hd : isDouble
  case neg => rw [if_neg hd] at hdc; exact absurd hdc (by simp)
  rw [if_pos hd] at hdc
  have finish : ∀ (hok : RemovalOK [card] src s)
      (hdc2 : (if (autoMoveToFoundation card src s).2 then
        some (autoMoveToFoundation card src s).1 else none) = some s1),
      BoardInv s1 := by
    intro hok hdc2
    by_cases h2 : (autoMoveToFoundation card src s).2
    · rw [if_pos h2] at hdc2
      injection hdc2 with hdc2
      subst hdc2
      simp only [autoMoveToFoundation]
      split
      · exact boardInv_moveCards _ _ _ _ h.1 hok (by simp)
      · exact h
    · rw [if_neg h2] at hdc2; exact absurd hdc2 (by simp)
  cases src with
  | foundation k => exact absurd hdc (by simp)
  | waste =>
      obtain ⟨hw, hp⟩ := resolveClick_waste cardId s pile card cardIndex hres
      rw [if_pos (by simp [cardsFromIndex])] at hdc
      exact finish ⟨card, hw, rfl⟩ hdc
  | tableau i =>
      obtain ⟨hp, hg⟩ := resolveClick_tableau cardId i s pile card cardIndex hres
      by_cases hlen : (cardsFromIndex (.tableau i) pile card cardIndex).length = 1
      · rw [if_pos hlen] at hdc
        have hdrop : pile.drop cardIndex = [card] :=
          drop_eq_singleton pile cardIndex card hg hlen
        have hok : RemovalOK [card] (.tableau i) s := by
          refine ⟨by simp, ?_, tab_ids_nodup s h.1 i⟩
          rw [← hdrop, hp]
          exact List.drop_suffix _ _
        exact finish hok hdc
      · rw [if_neg hlen] at hdc; exact absurd hdc (by simp)

theorem boardInv_selectCards (cards : List Card) (source : Loc) (s : GameState)
    (hids : allIds s = fullDeckIds)
    (hsel : match source with
      | .waste => ∃ c, s.waste.getLast? = some c ∧ cards = [c]
      | .foundation k => ∃ c, (s.foundations k).getLast? = some c ∧ cards = [c]
      | .tableau i => cards ≠ [] ∧ cards.IsSuffix (s.tableau i)) :
    BoardInv (selectCards cards source s) := by
  refine ⟨hids, ?_⟩
  unfold SelInv selectCards
  exact hsel

theorem boardInv_click (cardId : CardId) (src : Loc) (isDouble : Bool)
    (s : GameState) (h : BoardInv s) :
    BoardInv (handleCardClick cardId src isDouble s) := by
  unfold handleCardClick
  cases hres : resolveClick cardId src s with
  | none => exact h
  | some t =>
      obtain ⟨pile, card, cardIndex⟩ := t
      by_cases hf : card.faceUp
      · simp only [hf, Bool.not_true, Bool.false_eq_true, if_false]
        cases hdc : tryDoubleClick src pile card cardIndex isDouble s with
        | some s1 =>
            exact boardInv_tryDoubleClick cardId src s pile card cardIndex
              isDouble s1 h hres hdc
        | none =>
            cases hsel : s.selectedCards with
            | none =>
                apply boardInv_selectCards _ _ _ h.1
                cases src with
                | waste =>
                    obtain ⟨hw, hp⟩ :=
                      resolveClick_waste cardId s pile card cardIndex hres
                    exact ⟨card, hw, rfl⟩
                | foundation k =>
                    obtain ⟨hw, hp⟩ :=
                      resolveClick_foundation cardId k s pile card cardIndex hres
                    exact ⟨card, hw, rfl⟩
                | tableau i =>
                    obtain ⟨hp, hg⟩ :=
                      resolveClick_tableau cardId i s pile card cardIndex hres
                    have hlt : cardIndex < pile.length :=
                      (List.getElem?_eq_some.mp hg).1
                    constructor
                    · show pile.drop cardIndex ≠ []
                      intro hnil
                      have hlen : (pile.drop cardIndex).length =
                          pile.length - cardIndex := List.length_drop _ _
                      rw [hnil] at hlen
                      simp at hlen
                      omega
                    · show (pile.drop cardIndex).IsSuffix (s.tableau i)
                      rw [hp]
                      exact List.drop_suffix _ _
            | some sel =>
                cases src with
                | tableau i => exact boardInv_attemptMove s _ h
                | foundation k => exact boardInv_attemptMove s _ h
                | waste => exact boardInv_deselect s h
      · simp only [hf]
        exact h

theorem dealCols_ids (ns : List Nat) (deck : List Card) :
    ((dealCols ns deck).1.map idsM).sum + idsM (dealCols ns deck).2 =
      idsM deck := by
  induction ns generalizing deck with
  | nil => simp [dealCols]
  | cons n ns ih =>
      simp only [dealCols, List.map_cons, List.sum_cons]
      rw [idsM_dealPile, add_assoc, ih (deck.drop n), idsM_take_add_drop]

theorem tabIds_seven (c0 c1 c2 c3 c4 c5 c6 : List Card) :
    tabIds (fun i => [c0, c1, c2, c3, c4, c5, c6].getD i []) =
      idsM c0 + idsM c1 + idsM c2 + idsM c3 + idsM c4 + idsM c5 + idsM c6 :=
  rfl

theorem allIds_initGame (deck : List Card) :
    allIds (initGame deck) = idsM deck := by
  have h := dealCols_ids [1, 2, 3, 4, 5, 6, 7] deck
  show idsM (dealCols [1, 2, 3, 4, 5, 6, 7] deck).2 + idsM [] +
    foundIds (fun _ => []) +
    tabIds (fun i => (dealCols [1, 2, 3, 4, 5, 6, 7] deck).1.getD i []) =
    idsM deck
  have hcols : (dealCols [1, 2, 3, 4, 5, 6, 7] deck).1 =
      [dealPile (deck.take 1),
       dealPile ((deck.drop 1).take 2),
       dealPile (((deck.drop 1).drop 2).take 3),
       dealPile ((((deck.drop 1).drop 2).drop 3).take 4),
       dealPile (((((deck.drop 1).drop 2).drop 3).drop 4).take 5),
       dealPile ((((((deck.drop 1).drop 2).drop 3).drop 4).drop 5).take 6),
       dealPile
         (((((((deck.drop 1).drop 2).drop 3).drop 4).drop 5).drop 6).take 7)] :=
    rfl
  rw [hcols] at h ⊢
  rw [tabIds_seven]
  simp only [List.map_cons, List.map_nil, List.sum_cons, List.sum_nil,
    idsM_dealPile] at h ⊢
  rw [← h]
  abel

theorem boardInv_initGame (deck : List Card) (h : deck.Perm createDeck) :
    BoardInv (initGame deck) := by
  refine ⟨?_, selInv_of_none _ rfl⟩
  rw [allIds_initGame]
  exact Multiset.coe_eq_coe.mpr (h.map Card.id)

theorem boardInv_step (s s2 : GameState) (hstep : Step s s2)
    (h : BoardInv s) : BoardInv s2 := by
  cases hstep with
  | draw => exact boardInv_drawFromStock s h
  | click cardId src isDouble => exact boardInv_click cardId src isDouble s h
  | emptySlot slot => exact boardInv_emptySlot slot s h
  | attempt dest => exact boardInv_attemptMove s dest h
  | desel => exact boardInv_deselect s h

theorem boardInv_reachable (s : GameState) (h : Reachable s) : BoardInv s := by
  obtain ⟨deck, hperm, hrtg⟩ := h
  induction hrtg with
  | refl => exact boardInv_initGame deck hperm
  | tail hab hbc ih => exact boardInv_step _ _ hbc ih

/-- C1: in every state reachable from `initGame` by engine operations
(`drawFromStock`, `attemptMove`/`moveCards`, card/slot clicks, deselect),
the 52 card identities are partitioned across stock, waste, the four
foundations and the seven tableau columns with no duplicates and no
omissions: the multiset of identities over all piles equals the identity
multiset of the full deck (and is therefore duplicate-free).  Preservation
by every single operation is the `Step` induction proved in
`boardInv_step`. -/
theorem C1_card_conservation (s : GameState) (h : Reachable s) :
    allIds s = fullDeckIds ∧ (allIds s).Nodup := by
  have hinv := boardInv_reachable s h
  exact ⟨hinv.1, hinv.1 ▸ fullDeckIds_nodup⟩

theorem C1_card_conservation_witness :
    allIds (initGame createDeck) = fullDeckIds ∧
      (allIds (initGame createDeck)).Nodup :=
  C1_card_conservation (initGame createDeck)
    ⟨createDeck, List.Perm.refl _, Relation.ReflTransGen.refl⟩

/-- C3: `canMoveToFoundation` returns `false` on a suit mismatch; on the
matching empty foundation it accepts exactly an Ace; on a non-empty
foundation it accepts exactly the card whose value index (in the fixed
order A < 2 < … < 10 < J < Q < K) is one above the top card's. -/
theorem C3_canMoveToFoundation_spec (s : GameState) (card : Card)
    (k : SuitKey) :
    (getSuitShort card.suit ≠ k → canMoveToFoundation s card k = false) ∧
    (getSuitShort card.suit = k → s.foundations k = [] →
      (canMoveToFoundation s card k = true ↔ card.value = .A)) ∧
    (getSuitShort card.suit = k → ∀ rest top, s.foundations k = rest ++ [top] →
      (canMoveToFoundation s card k = true ↔
        getValueIndex card.value = getValueIndex top.value + 1)) := by
  refine ⟨?_, ?_, ?_⟩
  · intro hne
    simp only [canMoveToFoundation]
    rw [if_pos hne]
  · intro hk hempty
    simp only [canMoveToFoundation]
    rw [if_neg (by simp [hk]), hempty]
    simp
  · intro hk rest top htop
    simp only [canMoveToFoundation]
    rw [if_neg (by simp [hk]), htop, List.getLast?_concat]
    simp

theorem C3_canMoveToFoundation_witness :
    canMoveToFoundation
      { stock := [], waste := [], foundations := fun _ => [],
        tableau := fun _ => [], selectedCards := none, alerts := 0 }
      { suit := .hearts, value := .A, faceUp := true } .h = true :=
  ((C3_canMoveToFoundation_spec
      { stock := [], waste := [], foundations := fun _ => [],
        tableau := fun _ => [], selectedCards := none, alerts := 0 }
      { suit := .hearts, value := .A, faceUp := true } .h).2.1 rfl rfl).mpr rfl

/-- C4: `canMoveToTableau` on a non-empty run accepts an empty column
exactly for a King-led run; on a non-empty column it rejects a face-down
or same-colored top card, and otherwise accepts exactly a leading card
whose value index is one below the top card's (computed in `Int`, so an
Ace top accepts nothing). -/
theorem C4_canMoveToTableau_spec (s : GameState) (c : Card) (cs : List Card)
    (i : Fin 7) :
    (s.tableau i = [] →
      (canMoveToTableau s (c :: cs) i = true ↔ c.value = .K)) ∧
    (∀ rest top, s.tableau i = rest ++ [top] →
      (top.faceUp = false → canMoveToTableau s (c :: cs) i = false) ∧
      (c.color = top.color → canMoveToTableau s (c :: cs) i = false) ∧
      (top.faceUp = true → c.color ≠ top.color →
        (canMoveToTableau s (c :: cs) i = true ↔
          (getValueIndex c.value : Int) =
            (getValueIndex top.value : Int) - 1))) := by
  constructor
  · intro hempty
    simp only [canMoveToTableau, List.head?_cons]
    rw [hempty]
    simp
  · intro rest top htop
    refine ⟨?_, ?_, ?_⟩
    · intro hdown
      simp only [canMoveToTableau, List.head?_cons]
      rw [htop, List.getLast?_concat]
      simp [hdown]
    · intro hcolor
      simp only [canMoveToTableau, List.head?_cons]
      rw [htop, List.getLast?_concat]
      by_cases hdown : top.faceUp <;> simp [hdown, hcolor]
    · intro hup hcolor
      simp only [canMoveToTableau, List.head?_cons]
      rw [htop, List.getLast?_concat]
      simp [hup, hcolor]

theorem C4_canMoveToTableau_witness :
    canMoveToTableau
      { stock := [], waste := [], foundations := fun _ => [],
        tableau := fun _ => [], selectedCards := none, alerts := 0 }
      [{ suit := .spades, value := .K, faceUp := true }] 0 = true :=
  ((C4_canMoveToTableau_spec _ _ [] 0).1 rfl).mpr rfl

/-- C8: every `attemptMove` (successful or not) and every `drawFromStock`
returns with the selection absent. -/
theorem C8_selection_cleared (s : GameState) (dest : Loc) :
    ((attemptMove s dest).1).selectedCards = none ∧
      (drawFromStock s).selectedCards = none :=
  ⟨attemptMove_selectedCards s dest, drawFromStock_selectedCards s⟩

/-- C10: a click with source type waste resolves the waste's top card and
never reads the `cardId` argument: two calls differing only in `cardId`
produce identical states. -/
theorem C10_waste_click_ignores_cardId (s : GameState) (id1 id2 : CardId)
    (isDouble : Bool) :
    handleCardClick id1 .waste isDouble s =
      handleCardClick id2 .waste isDouble s ∧
    (∀ pile card idx, resolveClick id1 .waste s = some (pile, card, idx) →
      s.waste.getLast? = some card) := by
  constructor
  · rfl
  · intro pile card idx h
    exact (resolveClick_waste id1 s pile card idx h).1

theorem C10_waste_click_witness :
    ({ stock := [], waste := [{ suit := .hearts, value := .A, faceUp := true }],
       foundations := fun _ => [], tableau := fun _ => [],
       selectedCards := none, alerts := 0 } :
      GameState).waste.getLast? =
      some { suit := .hearts, value := .A, faceUp := true } :=
  (C10_waste_click_ignores_cardId _ (Val.K, Suit.spades) (Val.A, Suit.hearts)
    false).2 _ _ 0 rfl

/-- C7: an `attemptMove` that does not execute a move — no active
selection, or failed foundation/tableau validation (including any
multi-card run aimed at a foundation) — reports failure, leaves the
selection absent, and changes no pile (and fires no alert). -/
theorem C7_attemptMove_failure_frame (s : GameState) (dest : Loc) :
    (s.selectedCards = none → attemptMove s dest = (s, false)) ∧
    ((attemptMove s dest).2 = false →
      ((attemptMove s dest).1).stock = s.stock ∧
      ((attemptMove s dest).1).waste = s.waste ∧
      ((attemptMove s dest).1).foundations = s.foundations ∧
      ((attemptMove s dest).1).tableau = s.tableau ∧
      ((attemptMove s dest).1).alerts = s.alerts ∧
      ((attemptMove s dest).1).selectedCards = none) := by
  constructor
  · intro h
    unfold attemptMove
    rw [h]
  · unfold attemptMove
    split
    · next heq => intro _; exact ⟨rfl, rfl, rfl, rfl, rfl, heq⟩
    · (repeat' split) <;> intro h2 <;>
        first
          | exact ⟨rfl, rfl, rfl, rfl, rfl, rfl⟩
          | simp at h2

theorem C7_attemptMove_failure_witness :
    (attemptMove
        { stock := [], waste := [{ suit := .hearts, value := .A, faceUp := true }],
          foundations := fun _ => [], tableau := fun _ => [],
          selectedCards :=
            some ([{ suit := .hearts, value := .A, faceUp := true }], .waste),
          alerts := 0 } .waste).1.waste =
      [{ suit := .hearts, value := .A, faceUp := true }] :=
  ((C7_attemptMove_failure_frame
      { stock := [], waste := [{ suit := .hearts, value := .A, faceUp := true }],
        foundations := fun _ => [], tableau := fun _ => [],
        selectedCards :=
          some ([{ suit := .hearts, value := .A, faceUp := true }], .waste),
        alerts := 0 } .waste).2 rfl).2.1

theorem alerts_removeFromSource (cards : List Card) (source : Loc)
    (s : GameState) : (removeFromSource cards source s).alerts = s.alerts := by
  unfold removeFromSource
  (repeat' split) <;> rfl

theorem alerts_addToDestination (cards : List Card) (dest : Loc)
    (s : GameState) : (addToDestination cards dest s).alerts = s.alerts := by
  unfold addToDestination
  (repeat' split) <;> rfl

theorem totalFoundationCards_checkWin (s : GameState) :
    totalFoundationCards (checkWin s) = totalFoundationCards s := by
  unfold checkWin
  split <;> rfl

/-- C2, amended: `checkWin` keeps no once-per-game state, so every
successful `moveCards` whose resulting foundations sum to 52 fires the
win alert — the first one that reaches 52 and equally any later one (the
alert count goes up by one exactly when the resulting sum is 52). -/
theorem C2_amended_win_signal (cards : List Card) (source dest : Loc)
    (s : GameState) :
    (moveCards cards source dest s).alerts =
      if totalFoundationCards (moveCards cards source dest s) = 52
      then s.alerts + 1 else s.alerts := by
  have halerts : (deselect (addToDestination cards dest
      (removeFromSource cards source s))).alerts = s.alerts := by
    show (addToDestination cards dest (removeFromSource cards source s)).alerts
      = s.alerts
    rw [alerts_addToDestination, alerts_removeFromSource]
  unfold moveCards
  rw [totalFoundationCards_checkWin]
  unfold checkWin
  by_cases hc : totalFoundationCards (deselect (addToDestination cards dest
      (removeFromSource cards source s))) = 52
  · rw [if_pos hc, if_pos hc]
    show _ + 1 = s.alerts + 1
    rw [halerts]
  · rw [if_neg hc, if_neg hc]
    exact halerts

def suitOfKey : SuitKey → Suit
  | .h => .hearts
  | .d => .diamonds
  | .c => .clubs
  | .s => .spades

/-- A concrete foundation pile: the given values of one suit, face-up. -/
def ascendingPile (k : SuitKey) (vals : List Val) : List Card :=
  vals.map fun v => { suit := suitOfKey k, value := v, faceUp := true }

/-- A concrete board one move away from winning: hearts, diamonds and
clubs foundations complete, the spades foundation at A..Q, and the K♠
face-up as the only tableau card. -/
def nearWonState : GameState :=
  { stock := []
    waste := []
    foundations := fun k =>
      match k with
      | .s => ascendingPile .s
          [.A, .n2, .n3, .n4, .n5, .n6, .n7, .n8, .n9, .n10, .J, .Q]
      | k => ascendingPile k VALUES
    tableau := fun i =>
      if i = 0 then [{ suit := .spades, value := .K, faceUp := true }] else []
    selectedCards := none
    alerts := 0 }

/-- Clicks from `nearWonState`: select K♠, drop it on the spades
foundation (first win signal), pick it back up, drop it on the now-empty
first column, select it again, drop it on the foundation once more
(second win signal). -/
def winStep1 : GameState :=
  handleCardClick (Val.K, Suit.spades) (.tableau 0) false nearWonState

def winStep2 : GameState :=
  handleCardClick (Val.Q, Suit.spades) (.foundation .s) false winStep1

def winStep3 : GameState :=
  handleCardClick (Val.K, Suit.spades) (.foundation .s) false winStep2

def winStep4 : GameState :=
  handleEmptySlotClick (.tableau 0) winStep3

def winStep5 : GameState :=
  handleCardClick (Val.K, Suit.spades) (.tableau 0) false winStep4

def winStep6 : GameState :=
  handleCardClick (Val.Q, Suit.spades) (.foundation .s) false winStep5

/-- C2 counterexample: the win alert fires on the move that completes the
foundations (`winStep2`) and fires AGAIN after the King is moved off the
spades foundation and back (`winStep6`), a later win-check on a board
whose foundations again sum to 52 — the claimed once-per-game guard does
not exist in the code. -/
theorem C2_counterexample_double_signal :
    totalFoundationCards winStep2 = 52 ∧ winStep2.alerts = 1 ∧
      totalFoundationCards winStep6 = 52 ∧ winStep6.alerts = 2 := by
  refine ⟨?_, ?_, ?_, ?_⟩ <;> decide

theorem dealPile_length (l : List Card) : (dealPile l).length = l.length := by
  induction l with
  | nil => rfl
  | cons c tl ih =>
      cases tl with
      | nil => rfl
      | cons c1 rest =>
          rw [dealPile]
          simp only [List.length_cons] at ih ⊢
          rw [ih]

theorem dealPile_getElem (l : List Card) (j : Nat) :
    (dealPile l)[j]? = (l[j]?).map fun c =>
      { c with faceUp := decide (j = l.length - 1) } := by
  induction l generalizing j with
  | nil => simp [dealPile]
  | cons c tl ih =>
      cases tl with
      | nil =>
          cases j with
          | zero => simp [dealPile]
          | succ j => rfl
      | cons c1 rest =>
          cases j with
          | zero =>
              have hne : ¬ (0 : Nat) = (c :: c1 :: rest).length - 1 := by
                simp only [List.length_cons]
                omega
              rw [dealPile, decide_eq_false hne]
              simp
          | succ j =>
              rw [dealPile]
              simp only [List.getElem?_cons_succ]
              rw [ih j]
              have hd : decide (j = (c1 :: rest).length - 1) =
                  decide (j + 1 = (c :: c1 :: rest).length - 1) :=
                decide_eq_decide.mpr (by simp only [List.length_cons]; omega)
              rw [hd]

theorem initGame_col (deck : List Card) (a n : Nat) (col : List Card)
    (hcol : col = dealPile ((deck.drop a).take n)) (hn : 0 < n)
    (hfits : a + n ≤ deck.length) :
    col.length = n ∧
    ∀ j : Nat, j ≤ n - 1 → col[j]? =
      (deck[a + j]?).map (fun c => { c with faceUp := decide (j = n - 1) }) := by
  subst hcol
  have hlen2 : ((deck.drop a).take n).length = n := by
    rw [List.length_take, List.length_drop]
    omega
  refine ⟨by rw [dealPile_length, hlen2], ?_⟩
  intro j hj
  rw [dealPile_getElem, hlen2, List.getElem?_take_of_lt (by omega : j < n),
    List.getElem?_drop]

/-- C5: dealing a shuffled 52-card deck gives tableau column `i` exactly
the `i+1` cards at positions `i(i+1)/2 .. i(i+1)/2 + i` of the deck (the
triangular consecutive segments), face-up exactly on the last-dealt card;
the stock is the remaining 24 cards, all face-down, whose top (next card
popped by `drawFromStock`) is the deck's last card; waste and foundations
are empty and the selection is absent. -/
theorem C5_initGame_deal (deck : List Card) (hperm : deck.Perm createDeck) :
    (∀ i : Fin 7,
      ((initGame deck).tableau i).length = (i : Nat) + 1 ∧
      (∀ j : Nat, j ≤ (i : Nat) →
        ((initGame deck).tableau i)[j]? =
          (deck[(i : Nat) * ((i : Nat) + 1) / 2 + j]?).map
            (fun c => { c with faceUp := decide (j = (i : Nat)) }))) ∧
    (initGame deck).stock = deck.drop 28 ∧
    (initGame deck).stock.length = 24 ∧
    (∀ c ∈ (initGame deck).stock, c.faceUp = false) ∧
    (initGame deck).stock.getLast? = deck.getLast? ∧
    (initGame deck).waste = [] ∧
    (∀ k : SuitKey, (initGame deck).foundations k = []) ∧
    (initGame deck).selectedCards = none := by
  have hlen : deck.length = 52 := by
    rw [hperm.length_eq]; rfl
  have hstock : (initGame deck).stock = deck.drop 28 := by
    show ((((((deck.drop 1).drop 2).drop 3).drop 4).drop 5).drop 6).drop 7 =
      deck.drop 28
    simp [List.drop_drop]
  refine ⟨?_, hstock, ?_, ?_, ?_, rfl, fun k => rfl, rfl⟩
  · intro i
    fin_cases i
    · exact initGame_col deck 0 1 _ rfl (by omega) (by rw [hlen]; omega)
    · exact initGame_col deck 1 2 _ rfl (by omega) (by rw [hlen]; omega)
    · have e : (initGame deck).tableau 2 =
          dealPile (((deck.drop 1).drop 2).take 3) := rfl
      simp only [List.drop_drop] at e
      norm_num at e
      exact initGame_col deck 3 3 _ e (by omega) (by rw [hlen]; omega)
    · have e : (initGame deck).tableau 3 =
          dealPile ((((deck.drop 1).drop 2).drop 3).take 4) := rfl
      simp only [List.drop_drop] at e
      norm_num at e
      exact initGame_col deck 6 4 _ e (by omega) (by rw [hlen]; omega)
    · have e : (initGame deck).tableau 4 =
          dealPile (((((deck.drop 1).drop 2).drop 3).drop 4).take 5) := rfl
      simp only [List.drop_drop] at e
      norm_num at e
      exact initGame_col deck 10 5 _ e (by omega) (by rw [hlen]; omega)
    · have e : (initGame deck).tableau 5 =
          dealPile ((((((deck.drop 1).drop 2).drop 3).drop 4).drop 5).take 6) :=
        rfl
      simp only [List.drop_drop] at e
      norm_num at e
      exact initGame_col deck 15 6 _ e (by omega) (by rw [hlen]; omega)
    · have e : (initGame deck).tableau 6 =
          dealPile
            (((((((deck.drop 1).drop 2).drop 3).drop 4).drop 5).drop 6).take 7) :=
        rfl
      simp only [List.drop_drop] at e
      norm_num at e
      exact initGame_col deck 21 7 _ e (by omega) (by rw [hlen]; omega)
  · rw [hstock, List.length_drop, hlen]
  · intro c hc
    rw [hstock] at hc
    have h1 : c ∈ deck := List.mem_of_mem_drop hc
    have h2 : c ∈ createDeck := (hperm.mem_iff).mp h1
    have hall : ∀ x ∈ createDeck, x.faceUp = false := by decide
    exact hall c h2
  · rw [hstock, List.getLast?_eq_getElem?, List.getLast?_eq_getElem?,
      List.getElem?_drop, List.length_drop, hlen]

theorem C5_initGame_deal_witness :
    ((initGame createDeck).tableau 3).length = 4 ∧
      (initGame createDeck).stock.length = 24 :=
  ⟨((C5_initGame_deal createDeck (List.Perm.refl _)).1 3).1,
    (C5_initGame_deal createDeck (List.Perm.refl _)).2.2.1⟩

theorem drawFromStock_pop (s : GameState) (c : Card)
    (hc : s.stock.getLast? = some c) :
    drawFromStock s =
      { s with
        stock := s.stock.dropLast,
        waste := s.waste ++ [{ c with faceUp := true }],
        selectedCards := none } := by
  simp only [drawFromStock]
  have hc2 : (deselect s).stock.getLast? = some c := hc
  rw [hc2]
  rfl

theorem drawFromStock_recycle (s : GameState) (hstock : s.stock = [])
    (hwaste : s.waste ≠ []) :
    drawFromStock s =
      { s with
        stock := s.waste.reverse.map (fun c => { c with faceUp := false }),
        waste := [],
        selectedCards := none } := by
  simp only [drawFromStock]
  have h1 : (deselect s).stock.getLast? = none := by
    show s.stock.getLast? = none
    rw [hstock]; rfl
  rw [h1]
  have h2 : ¬ ((deselect s).waste.isEmpty = true) := by
    show ¬ (s.waste.isEmpty = true)
    simpa [List.isEmpty_iff] using hwaste
  rw [if_neg h2]
  rfl

theorem drawFromStock_noop (s : GameState) (hstock : s.stock = [])
    (hwaste : s.waste = []) :
    drawFromStock s = { s with selectedCards := none } := by
  simp only [drawFromStock]
  have h1 : (deselect s).stock.getLast? = none := by
    show s.stock.getLast? = none
    rw [hstock]; rfl
  rw [h1, if_pos]
  · rfl
  · show s.waste.isEmpty = true
    rw [hwaste]; rfl

theorem drawN_append (l1 l2 : List Card) (s : GameState)
    (hstock : s.stock = l1 ++ l2) (hsel : s.selectedCards = none) :
    drawN l2.length s =
      { s with
        stock := l1,
        waste := s.waste ++ l2.reverse.map fun c => { c with faceUp := true } } := by
  induction l2 using List.reverseRecOn generalizing s with
  | nil =>
      show s = _
      rw [List.append_nil] at hstock
      rw [← hstock]
      simp only [List.reverse_nil, List.map_nil, List.append_nil]
  | append_singleton l2x c ih =>
      rw [show (l2x ++ [c]).length = l2x.length + 1 by simp]
      show drawN l2x.length (drawFromStock s) = _
      have hc : s.stock.getLast? = some c := by
        rw [hstock, ← List.append_assoc]
        exact List.getLast?_concat _
      rw [drawFromStock_pop s c hc]
      have hstock2 : ({ s with
          stock := s.stock.dropLast,
          waste := s.waste ++ [{ c with faceUp := true }],
          selectedCards := none } : GameState).stock = l1 ++ l2x := by
        show s.stock.dropLast = l1 ++ l2x
        rw [hstock, ← List.append_assoc, List.dropLast_concat]
      rw [ih _ hstock2 rfl]
      have hw : (s.waste ++ [{ c with faceUp := true }]) ++
          (l2x.reverse.map fun c => { c with faceUp := true }) =
          s.waste ++
            ((l2x ++ [c]).reverse.map fun c => { c with faceUp := true }) := by
        rw [List.reverse_append]
        simp [List.append_assoc]
      show ({ s with
        stock := l1,
        waste := (s.waste ++ [{ c with faceUp := true }]) ++
          (l2x.reverse.map fun c => { c with faceUp := true }),
        selectedCards := none } : GameState) = _
      rw [hw, hsel]

/-- C6: with an empty stock and non-empty waste, `drawFromStock` recycles
the waste — reversed and all face-down — into the stock, empties the
waste, and changes no other pile; drawing the entire recycled stock then
rebuilds the waste in its original first-to-last order (each card face-up
again), i.e. the draw order is replayed exactly.  With both stock and
waste empty the call leaves every pile unchanged. -/
theorem C6_recycle_roundtrip (s : GameState) :
    (s.stock = [] → s.waste ≠ [] →
      (drawFromStock s).stock =
        s.waste.reverse.map (fun c => { c with faceUp := false }) ∧
      (drawFromStock s).waste = [] ∧
      (drawFromStock s).foundations = s.foundations ∧
      (drawFromStock s).tableau = s.tableau ∧
      (drawFromStock s).alerts = s.alerts ∧
      (drawFromStock s).selectedCards = none ∧
      drawN s.waste.length (drawFromStock s) =
        { s with
          stock := [],
          waste := s.waste.map (fun c => { c with faceUp := true }),
          selectedCards := none }) ∧
    (s.stock = [] → s.waste = [] →
      drawFromStock s = { s with selectedCards := none }) := by
  constructor
  · intro hstock hwaste
    rw [drawFromStock_recycle s hstock hwaste]
    refine ⟨rfl, rfl, rfl, rfl, rfl, rfl, ?_⟩
    have hlen : s.waste.length =
        (s.waste.reverse.map fun c => { c with faceUp := false }).length := by
      simp
    rw [hlen]
    have happ := drawN_append []
      (s.waste.reverse.map fun c => { c with faceUp := false })
      { s with
        stock := s.waste.reverse.map (fun c => { c with faceUp := false }),
        waste := [],
        selectedCards := none }
      (by rfl) rfl
    rw [happ]
    have hrev : (s.waste.reverse.map fun c => { c with faceUp := false }).reverse
        = s.waste.map fun c => { c with faceUp := false } := by
      rw [List.map_reverse, List.reverse_reverse]
    have hw2 : ((s.waste.reverse.map
          fun c => { c with faceUp := false }).reverse.map
            fun c => { c with faceUp := true }) =
        s.waste.map fun c => { c with faceUp := true } := by
      rw [hrev, List.map_map]
      have hcomp : ((fun c : Card => { c with faceUp := true }) ∘
          fun c : Card => { c with faceUp := false }) =
          fun c : Card => { c with faceUp := true } := funext fun c => rfl
      rw [hcomp]
    show ({ s with
      stock := ([] : List Card),
      waste := ([] : List Card) ++
        ((s.waste.reverse.map fun c => { c with faceUp := false }).reverse.map
          fun c => { c with faceUp := true }),
      selectedCards := none } : GameState) = _
    rw [List.nil_append, hw2]
  · intro hstock hwaste
    exact drawFromStock_noop s hstock hwaste

def recycleDemoState : GameState :=
  { stock := []
    waste := [{ suit := .hearts, value := .A, faceUp := true },
              { suit := .hearts, value := .n2, faceUp := true }]
    foundations := fun _ => []
    tableau := fun _ => []
    selectedCards := none
    alerts := 0 }

theorem C6_recycle_roundtrip_witness :
    drawN recycleDemoState.waste.length (drawFromStock recycleDemoState) =
      { recycleDemoState with
        stock := []
        waste := recycleDemoState.waste.map (fun c => { c with faceUp := true })
        selectedCards := none } :=
  ((C6_recycle_roundtrip recycleDemoState).1 rfl (by decide)).2.2.2.2.2.2

theorem flipTop_concat_true (l : List Card) (c : Card) (hc : c.faceUp = true) :
    flipTopIfFaceDown (l ++ [c]) = l ++ [c] := by
  unfold flipTopIfFaceDown
  rw [List.getLast?_concat]
  simp [hc]

theorem flipTop_concat_false (l : List Card) (c : Card)
    (hc : c.faceUp = false) :
    flipTopIfFaceDown (l ++ [c]) = l ++ [{ c with faceUp := true }] := by
  unfold flipTopIfFaceDown
  rw [List.getLast?_concat]
  simp [hc, List.dropLast_concat]

theorem stock_checkWin (s : GameState) : (checkWin s).stock = s.stock := by
  unfold checkWin; split <;> rfl

theorem waste_checkWin (s : GameState) : (checkWin s).waste = s.waste := by
  unfold checkWin; split <;> rfl

theorem tableau_checkWin (s : GameState) : (checkWin s).tableau = s.tableau := by
  unfold checkWin; split <;> rfl

theorem foundations_checkWin (s : GameState) :
    (checkWin s).foundations = s.foundations := by
  unfold checkWin; split <;> rfl

theorem stock_addToDestination (cards : List Card) (dest : Loc)
    (s : GameState) : (addToDestination cards dest s).stock = s.stock := by
  cases dest <;> rfl

theorem waste_addToDestination (cards : List Card) (dest : Loc)
    (s : GameState) : (addToDestination cards dest s).waste = s.waste := by
  cases dest <;> rfl

/-- C9: for a `moveCards` whose source is a tableau column (the moved
`cards` being a suffix of that column, as at every call site), exactly the
newly exposed top card — if it exists and is face-down — is flipped
face-up; stock, waste, the other columns and the other foundations are
untouched, and the moved cards arrive at the destination with their
`faceUp` flags unchanged.  If the exposed card is already face-up, or the
column empties, no `faceUp` flag anywhere changes. -/
theorem C9_autoFlip_frame (s : GameState) (i : Fin 7) (front cards : List Card)
    (dest : Loc) (hpile : s.tableau i = front ++ cards) (hne : cards ≠ [])
    (hnd : ((s.tableau i).map Card.id).Nodup)
    (hdest : (∃ f, dest = .foundation f) ∨ ∃ j, dest = .tableau j ∧ j ≠ i) :
    (front = [] → (moveCards cards (.tableau i) dest s).tableau i = []) ∧
    (∀ front2 last2, front = front2 ++ [last2] →
      (last2.faceUp = true →
        (moveCards cards (.tableau i) dest s).tableau i = front) ∧
      (last2.faceUp = false →
        (moveCards cards (.tableau i) dest s).tableau i =
          front2 ++ [{ last2 with faceUp := true }])) ∧
    (moveCards cards (.tableau i) dest s).stock = s.stock ∧
    (moveCards cards (.tableau i) dest s).waste = s.waste ∧
    (∀ j : Fin 7, j ≠ i → dest ≠ .tableau j →
      (moveCards cards (.tableau i) dest s).tableau j = s.tableau j) ∧
    (∀ f : SuitKey, dest ≠ .foundation f →
      (moveCards cards (.tableau i) dest s).foundations f = s.foundations f) ∧
    (∀ f : SuitKey, dest = .foundation f →
      (moveCards cards (.tableau i) dest s).foundations f =
        s.foundations f ++ cards) ∧
    (∀ j : Fin 7, dest = .tableau j →
      (moveCards cards (.tableau i) dest s).tableau j =
        s.tableau j ++ cards) := by
  have hrem := removeFromSource_tableau_eq s i front cards hpile hne hnd
  have htab : (moveCards cards (.tableau i) dest s).tableau =
      (addToDestination cards dest
        (removeFromSource cards (.tableau i) s)).tableau := by
    unfold moveCards
    rw [tableau_checkWin]
    rfl
  have hfound : (moveCards cards (.tableau i) dest s).foundations =
      (addToDestination cards dest
        (removeFromSource cards (.tableau i) s)).foundations := by
    unfold moveCards
    rw [foundations_checkWin]
    rfl
  have hsrc_col : (moveCards cards (.tableau i) dest s).tableau i =
      flipTopIfFaceDown front := by
    rw [htab, hrem]
    rcases hdest with ⟨f, rfl⟩ | ⟨j, rfl, hji⟩
    · show Function.update s.tableau i (flipTopIfFaceDown front) i = _
      rw [Function.update_same]
    · show Function.update
        (Function.update s.tableau i (flipTopIfFaceDown front)) j
        (Function.update s.tableau i (flipTopIfFaceDown front) j ++ cards) i = _
      rw [Function.update_noteq (Ne.symm hji), Function.update_same]
  refine ⟨?_, ?_, ?_, ?_, ?_, ?_, ?_, ?_⟩
  · intro hfront
    rw [hsrc_col, hfront]
    rfl
  · intro front2 last2 hfront
    constructor
    · intro hup
      rw [hsrc_col, hfront, flipTop_concat_true _ _ hup]
    · intro hdown
      rw [hsrc_col, hfront, flipTop_concat_false _ _ hdown]
  · unfold moveCards
    rw [stock_checkWin]
    show (addToDestination cards dest
      (removeFromSource cards (.tableau i) s)).stock = s.stock
    rw [stock_addToDestination, hrem]
  · unfold moveCards
    rw [waste_checkWin]
    show (addToDestination cards dest
      (removeFromSource cards (.tableau i) s)).waste = s.waste
    rw [waste_addToDestination, hrem]
  · intro j hji hjd
    rw [htab, hrem]
    rcases hdest with ⟨f, rfl⟩ | ⟨j2, rfl, hj2i⟩
    · show Function.update s.tableau i (flipTopIfFaceDown front) j = _
      rw [Function.update_noteq hji]
    · have hjj2 : j ≠ j2 := fun h => hjd (by rw [h])
      show Function.update
        (Function.update s.tableau i (flipTopIfFaceDown front)) j2
        (Function.update s.tableau i (flipTopIfFaceDown front) j2 ++ cards) j
        = _
      rw [Function.update_noteq hjj2, Function.update_noteq hji]
  · intro f hfd
    rw [hfound, hrem]
    rcases hdest with ⟨f2, rfl⟩ | ⟨j2, rfl, hj2i⟩
    · have hff2 : f ≠ f2 := fun h => hfd (by rw [h])
      show Function.update s.foundations f2 (s.foundations f2 ++ cards) f = _
      rw [Function.update_noteq hff2]
    · rfl
  · intro f hfd
    subst hfd
    rw [hfound, hrem]
    show Function.update s.foundations f (s.foundations f ++ cards) f = _
    rw [Function.update_same]
  · intro j hjd
    subst hjd
    rcases hdest with ⟨f, hf⟩ | ⟨j2, hj2, hj2i⟩
    · exact absurd hf (by simp)
    · have hjj : j = j2 := by injection hj2
      have hji : j ≠ i := by rw [hjj]; exact hj2i
      rw [htab, hrem]
      show Function.update
        (Function.update s.tableau i (flipTopIfFaceDown front)) j
        (Function.update s.tableau i (flipTopIfFaceDown front) j ++ cards) j
        = _
      rw [Function.update_same, Function.update_noteq hji]

def flipDemoState : GameState :=
  { stock := []
    waste := []
    foundations := fun _ => []
    tableau := fun i =>
      if i = 0 then
        [{ suit := .hearts, value := .A, faceUp := false },
         { suit := .spades, value := .K, faceUp := true }]
      else []
    selectedCards := none
    alerts := 0 }

theorem C9_autoFlip_frame_witness :
    (moveCards [{ suit := .spades, value := .K, faceUp := true }] (.tableau 0)
        (.foundation .s) flipDemoState).tableau 0 =
      [{ suit := .hearts, value := .A, faceUp := true }] :=
  ((C9_autoFlip_frame flipDemoState 0
      [{ suit := .hearts, value := .A, faceUp := false }]
      [{ suit := .spades, value := .K, faceUp := true }]
      (.foundation .s) rfl (by decide) (by decide)
      (Or.inl ⟨.s, rfl⟩)).2.1
    [] { suit := .hearts, value := .A, faceUp := false } rfl).2 rfl
